import Mathlib

/-!
Verification of the file2md conversion-request pipeline.

This file gives a shallow embedding of the orchestration layer of the
file2md HTTP service (routes `convert_file`, `convert_from_url`,
`convert_file_download`, `convert_url_download` in `app/api/routes.py`,
the staged-file lifecycle of `DocumentConverter.convert_from_bytes` and
`DocumentConverter._safe_delete_file` in `app/core/converter.py`, the
bounded streaming download `download_file_from_url` and filename
resolution `_extract_filename` in `app/utils/download.py`, and the
process-wide singleton `get_converter`), together with theorems settling
the specification claims about that layer.

Python strings are modelled as Lean `String`; the Python string
operations the code uses (`split`, `strip`, `lower`, `in`, `rsplit`)
are re-implemented structurally over `List Char` so that all
definitions evaluate inside the kernel.  Byte buffers are `List Nat`
(each element a byte value), and the external Docling engine is an
oracle parameter `Except String String` (its result, or the message of
the exception it raises).
-/

namespace File2md

/-! ## Python string primitives -/

/-- Python `s.split(sep)` for a non-empty separator, over character lists.
The first argument is fuel (call with the length of the list, which is
always sufficient since every step consumes at least one character). -/
def chSplit (sep : List Char) : Nat → List Char → List (List Char)
  | _, [] => [[]]
  | 0, s => [s]
  | fuel + 1, c :: rest =>
    if sep.isPrefixOf (c :: rest) then
      [] :: chSplit sep fuel (List.drop (sep.length - 1) rest)
    else
      match chSplit sep fuel rest with
      | [] => [[c]]
      | p :: ps => (c :: p) :: ps

/-- Python `s.split(sep)` on strings (non-empty `sep`). -/
def pySplit (s sep : String) : List String :=
  (chSplit sep.data s.data.length s.data).map String.mk

/-- Python `sub in s` (substring containment test). -/
def pyIn (sub s : String) : Bool := decide (1 < (pySplit s sub).length)

/-- Python `s.strip(chars)`: remove leading and trailing characters
belonging to `cs`. -/
def stripChars (cs : List Char) (l : List Char) : List Char :=
  ((l.dropWhile (fun c => cs.contains c)).reverse.dropWhile
    (fun c => cs.contains c)).reverse

/-- Python `s.strip(chars)` on strings. -/
def pyStrip (s : String) (cs : List Char) : String := String.mk (stripChars cs s.data)

/-- ASCII lower-casing of one character, as Python `str.lower` acts on
ASCII letters (the extensions the service compares are ASCII). -/
def asciiLower (c : Char) : Char :=
  if 65 ≤ c.toNat ∧ c.toNat ≤ 90 then Char.ofNat (c.toNat + 32) else c

/-- Python `s.lower()` restricted to ASCII letters. -/
def pyLower (s : String) : String := String.mk (s.data.map asciiLower)

/-! ## Percent-encoding (`urllib.parse.quote` with `safe` empty) -/

/-- UTF-8 encoding of one character as byte values, exactly the bytes
Python's `str.encode("utf-8")` produces for a Unicode scalar value. -/
def utf8Bytes (c : Char) : List Nat :=
  let n := c.toNat
  if n < 128 then [n]
  else if n < 2048 then [192 + n / 64, 128 + n % 64]
  else if n < 65536 then [224 + n / 4096, 128 + n / 64 % 64, 128 + n % 64]
  else [240 + n / 262144, 128 + n / 4096 % 64, 128 + n / 64 % 64, 128 + n % 64]

/-- UTF-8 byte sequence of a string. -/
def strUtf8 (s : String) : List Nat := (s.data.map utf8Bytes).flatten

/-- Uppercase hexadecimal digit character for a value below 16, as in
the `%XX` escapes produced by `urllib.parse.quote`. -/
def hexUpper (d : Nat) : Char :=
  Char.ofNat (if d < 10 then 48 + d else 55 + d)

/-- The bytes `urllib.parse.quote` never escapes: ASCII letters, digits,
and `_ . - ~`. -/
def isAlwaysSafeByte (b : Nat) : Bool :=
  decide ((48 ≤ b ∧ b ≤ 57) ∨ (65 ≤ b ∧ b ≤ 90) ∨ (97 ≤ b ∧ b ≤ 122) ∨
    b = 95 ∨ b = 46 ∨ b = 45 ∨ b = 126)

/-- Characters `urllib.parse.quote` emits for one byte: the byte itself
when safe, otherwise a percent escape `%XX` with uppercase hex. -/
def quoteByteChars (b : Nat) : List Char :=
  if isAlwaysSafeByte b then [Char.ofNat b]
  else [Char.ofNat 37, hexUpper (b / 16), hexUpper (b % 16)]

/-- Python `urllib.parse.quote(s, safe=empty)`: percent-encode every
UTF-8 byte that is not an always-safe byte. -/
def urlQuoteAll (s : String) : String :=
  String.mk (((strUtf8 s).map quoteByteChars).flatten)

/-- Value of an (upper- or lowercase) hexadecimal digit character. -/
def hexVal (c : Char) : Option Nat :=
  let n := c.toNat
  if 48 ≤ n ∧ n ≤ 57 then some (n - 48)
  else if 65 ≤ n ∧ n ≤ 70 then some (n - 55)
  else if 97 ≤ n ∧ n ≤ 102 then some (n - 87)
  else none

/-- Percent-decoding of a character list into byte values: `%XX` becomes
the byte `XX`, a plain ASCII character becomes its code; anything else
(a malformed escape, a non-ASCII character) fails. -/
def pctDecodeList : List Char → Option (List Nat)
  | [] => some []
  | c :: rest =>
    if c = Char.ofNat 37 then
      match rest with
      | h :: l :: rest2 =>
        match hexVal h, hexVal l with
        | some hi, some lo => (pctDecodeList rest2).map (fun bs => (16 * hi + lo) :: bs)
        | _, _ => none
      | _ => none
    else if c.toNat < 128 then (pctDecodeList rest).map (fun bs => c.toNat :: bs)
    else none

/-- Percent-decoding of a string into its byte values. -/
def pctDecodeBytes (s : String) : Option (List Nat) := pctDecodeList s.data

/-- RFC 5987 `attr-char`: ALPHA / DIGIT / `! # $ & + - . ^ _ \x60 | ~`. -/
def isAttrChar (c : Char) : Bool :=
  c.isAlphanum ||
    [33, 35, 36, 38, 43, 45, 46, 94, 95, 96, 124, 126].contains c.toNat

/-- A character list is a well-formed RFC 5987 `value-chars` production:
a sequence of `attr-char`s and `%XX` escapes. -/
def rfc5987ValidChars : List Char → Bool
  | [] => true
  | c :: rest =>
    if c = Char.ofNat 37 then
      match rest with
      | h :: l :: rest2 => (hexVal h).isSome && (hexVal l).isSome && rfc5987ValidChars rest2
      | _ => false
    else isAttrChar c && rfc5987ValidChars rest

/-! ## Configuration (`app/core/config.py`) -/

/-- The configuration fields of `Settings` that the conversion pipeline
reads (field names as in `app/core/config.py`). -/
structure Settings where
  SUPPORTED_EXTENSIONS : String
  MAX_FILE_SIZE : Nat
  MAX_DOWNLOAD_SIZE : Nat
  DOWNLOAD_TIMEOUT : Nat
deriving DecidableEq, Repr

/-- The default configuration values from `app/core/config.py`. -/
def defaultSettings : Settings :=
  ⟨".pdf,.docx,.pptx,.xlsx,.html,.htm", 104857600, 104857600, 30⟩

/-- The allow-list the routes compare against:
`settings.SUPPORTED_EXTENSIONS.split(",")`. -/
def allowedExts (st : Settings) : List String := pySplit st.SUPPORTED_EXTENSIONS ","

/-- Size-limit message text (the code interpolates
`MAX / 1024 / 1024` as a float; modelled for whole-MiB limits, where
Python prints `100.0`). -/
def sizeLimitMsg (maxBytes : Nat) : String :=
  "文件大小超过限制 (" ++ toString (maxBytes / 1048576) ++ ".0MB)"

/-! ## Remote fetch (`app/utils/download.py`) -/

/-- The parts of an HTTP GET response that `download_file_from_url`
consumes: the status code, the `Content-Length` header when present
(with a numeric value), the `Content-Disposition` header
(`headers.get` with default empty string), and the streamed body as
the chunks yielded by `iter_chunked(8192)`. -/
structure HttpResponse where
  status : Nat
  contentLength : Option Nat
  contentDisposition : String
  chunks : List (List Nat)
deriving DecidableEq, Repr

/-- The accumulation loop
`for chunk in response.content.iter_chunked(8192): content += chunk; if len(content) > MAX: raise`.
Appends each chunk to the buffer and then fails if the buffer length
exceeds the maximum. -/
def readChunks (maxSize : Nat) : List (List Nat) → List Nat → Except String (List Nat)
  | [], acc => .ok acc
  | c :: cs, acc =>
    let acc2 := acc ++ c
    if maxSize < acc2.length then .error (sizeLimitMsg maxSize)
    else readChunks maxSize cs acc2

/-- Observation function on the same loop: the length of the
accumulated buffer at the moment the size-limit abort fires (`none`
when the loop never aborts).  Second argument is the length
accumulated so far. -/
def bufferAtAbort (maxSize : Nat) : List (List Nat) → Nat → Option Nat
  | [], _ => none
  | c :: cs, acc =>
    let a := acc + c.length
    if maxSize < a then some a else bufferAtAbort maxSize cs a

/-- Characters urlparse accepts inside a URL scheme. -/
def isSchemeChar (c : Char) : Bool :=
  c.isAlphanum || c = Char.ofNat 43 || c = Char.ofNat 45 || c = Char.ofNat 46

/-- Remove a leading `scheme:` from a URL, as `urllib.parse.urlparse`
does (a scheme must start with an ASCII letter and consist of
letters, digits and `+ - .`). -/
def dropScheme (url : String) : String :=
  match pySplit url ":" with
  | [] => url
  | [_] => url
  | first :: rest =>
    if first ≠ "" && first.data.all isSchemeChar && (first.data.headD ' ').isAlpha then
      String.intercalate ":" rest
    else url

/-- Remove a leading `//netloc` component: everything after `//` up to
the first `/`, `?` or `#`. -/
def dropNetloc (s : String) : String :=
  if ['/', '/'].isPrefixOf s.data then
    String.mk ((s.data.drop 2).dropWhile (fun c => ¬(c = '/' ∨ c = '?' ∨ c = '#')))
  else s

/-- The `path` component `urllib.parse.urlparse(url).path`: strip
scheme, network location, fragment and query. -/
def urlPathOf (url : String) : String :=
  let u1 := dropNetloc (dropScheme url)
  let u2 := (pySplit u1 "#").headD u1
  (pySplit u2 "?").headD u2

/-- The `name` of a `pathlib` POSIX path: the last component after
dropping empty and `.` segments (empty for a root or empty path). -/
def posixName (p : String) : String :=
  ((pySplit p "/").filter (fun seg => ¬(seg = "" ∨ seg = "."))).getLastD ""

/-- Fallback branch of `_extract_filename`: the last path segment of
the URL via `Path(urlparse(url).path).name`, else `"document"`. -/
def urlFallbackName (url : String) : String :=
  let nm := posixName (urlPathOf url)
  if nm ≠ "" then nm else "document"

/-- The double-quote and single-quote characters stripped by
`.strip(...)` in `_extract_filename`. -/
def quoteMarks : List Char := [Char.ofNat 34, Char.ofNat 39]

/-- `_extract_filename(url, headers)` from `app/utils/download.py`:
if `"filename="` occurs in the `Content-Disposition` header, take the
text after its first occurrence (`split("filename=")[1]`), strip
surrounding quote characters, and return it when non-empty; otherwise
fall back to the last URL path segment, and finally to `"document"`. -/
def extract_filename (url : String) (contentDisposition : String) : String :=
  if pyIn "filename=" contentDisposition then
    let fn := pyStrip ((pySplit contentDisposition "filename=").getD 1 "") quoteMarks
    if fn ≠ "" then fn else urlFallbackName url
  else urlFallbackName url

/-- `download_file_from_url` from `app/utils/download.py`, applied to
the response the server produced for the URL.  A non-200 status fails;
a `Content-Length` above the maximum fails without reading the body;
otherwise the body is accumulated chunk-wise with the size check after
every chunk, and on success the bytes are paired with the extracted
filename. -/
def download_file_from_url (st : Settings) (url : String) (resp : HttpResponse) :
    Except String (List Nat × String) :=
  if resp.status ≠ 200 then
    .error ("下载失败，HTTP状态码: " ++ toString resp.status)
  else if (match resp.contentLength with
           | some n => decide (st.MAX_DOWNLOAD_SIZE < n)
           | none => false) then
    .error (sizeLimitMsg st.MAX_DOWNLOAD_SIZE)
  else
    (readChunks st.MAX_DOWNLOAD_SIZE resp.chunks []).map
      (fun content => (content, extract_filename url resp.contentDisposition))

/-! ## Routes (`app/api/routes.py`) -/

/-- Extension derivation used by every route:
`"." + filename.split(".")[-1].lower() if "." in filename else ""`. -/
def deriveExt (filename : String) : String :=
  if pyIn "." filename then "." ++ pyLower ((pySplit filename ".").getLastD "")
  else ""

/-- Stem used by the download routes:
`filename.rsplit(".", 1)[0] if "." in filename else filename`. -/
def originalNameOf (filename : String) : String :=
  if pyIn "." filename then String.intercalate "." ((pySplit filename ".").dropLast)
  else filename

/-- A FastAPI `HTTPException` as raised by the routes. -/
structure HTTPError where
  status_code : Nat
  detail : String
deriving DecidableEq, Repr

/-- The `ConvertResponse` success payload (`app/models/schemas.py`);
the `error` field is never populated by the pipeline and is omitted. -/
structure ConvertResponse where
  success : Bool
  markdown : String
  filename : Option String
  url : Option String
deriving DecidableEq, Repr

/-- The file-download response: body bytes plus the two headers the
route sets (the explicit `Content-Type` header wins over the
`media_type` argument). -/
structure FileDownloadResponse where
  content : List Nat
  contentDisposition : String
  contentType : String
deriving DecidableEq, Repr

/-- I/O events a route performs, in order: reading the uploaded file
(`await file.read()`), issuing the URL download, and invoking the
conversion engine. -/
inductive RouteEv
  | fileRead
  | download
  | convertCall
deriving DecidableEq, Repr

/-- The 400 detail for an unsupported extension:
`"不支持的文件格式。支持的格式: " + settings.SUPPORTED_EXTENSIONS`. -/
def unsupportedFormatMsg (st : Settings) : String :=
  "不支持的文件格式。支持的格式: " ++ st.SUPPORTED_EXTENSIONS

/-- `POST /convert/file` (`convert_file` in `app/api/routes.py`).
`content` is the uploaded payload, `convertResult` the oracle for what
`converter.convert_from_bytes` would produce (`.error` when it raises).
Returns the outcome and the ordered list of I/O events performed. -/
def convert_file (st : Settings) (filename : String) (content : List Nat)
    (convertResult : Except String String) :
    Except HTTPError ConvertResponse × List RouteEv :=
  let file_ext := deriveExt filename
  if (allowedExts st).contains file_ext = false then
    (.error ⟨400, unsupportedFormatMsg st⟩, [])
  else if st.MAX_FILE_SIZE < content.length then
    (.error ⟨400, sizeLimitMsg st.MAX_FILE_SIZE⟩, [.fileRead])
  else
    match convertResult with
    | .ok md => (.ok ⟨true, md, some filename, none⟩, [.fileRead, .convertCall])
    | .error e => (.error ⟨500, "转换失败: " ++ e⟩, [.fileRead, .convertCall])

/-- `POST /convert/url` (`convert_from_url` in `app/api/routes.py`).
The download is issued first; the filename extracted from the response
is then validated; inner `HTTPException`s re-raise unchanged and any
other exception becomes a 500 with its message. -/
def convert_from_url (st : Settings) (url : String) (resp : HttpResponse)
    (convertResult : Except String String) :
    Except HTTPError ConvertResponse × List RouteEv :=
  match download_file_from_url st url resp with
  | .error e => (.error ⟨500, "转换失败: " ++ e⟩, [.download])
  | .ok (_content, filename) =>
    let file_ext := deriveExt filename
    if (allowedExts st).contains file_ext = false then
      (.error ⟨400, unsupportedFormatMsg st⟩, [.download])
    else
      match convertResult with
      | .ok md => (.ok ⟨true, md, some filename, some url⟩, [.download, .convertCall])
      | .error e => (.error ⟨500, "转换失败: " ++ e⟩, [.download, .convertCall])

/-- Content-Disposition header built by the download routes:
`"attachment; filename*=UTF-8" + two single quotes + quote(name, safe=empty)`. -/
def contentDispositionFor (outputFilename : String) : String :=
  "attachment; filename*=UTF-8" ++ String.mk [Char.ofNat 39, Char.ofNat 39] ++
    urlQuoteAll outputFilename

/-- `POST /convert/file/download` (`convert_file_download` in
`app/api/routes.py`): same validation as `convert_file`, then a raw
`Response` whose body is the UTF-8 Markdown, with the RFC 5987
Content-Disposition for the stem of the original filename plus `.md`,
and Content-Type `text/markdown; charset=utf-8`. -/
def convert_file_download (st : Settings) (filename : String) (content : List Nat)
    (convertResult : Except String String) :
    Except HTTPError FileDownloadResponse × List RouteEv :=
  let file_ext := deriveExt filename
  if (allowedExts st).contains file_ext = false then
    (.error ⟨400, unsupportedFormatMsg st⟩, [])
  else if st.MAX_FILE_SIZE < content.length then
    (.error ⟨400, sizeLimitMsg st.MAX_FILE_SIZE⟩, [.fileRead])
  else
    match convertResult with
    | .ok md =>
      let output_filename := originalNameOf filename ++ ".md"
      (.ok ⟨strUtf8 md, contentDispositionFor output_filename,
            "text/markdown; charset=utf-8"⟩, [.fileRead, .convertCall])
    | .error e => (.error ⟨500, "转换失败: " ++ e⟩, [.fileRead, .convertCall])

/-- `POST /convert/url/download` (`convert_url_download` in
`app/api/routes.py`): download, validate the extracted filename, then
the same file response as `convert_file_download`. -/
def convert_url_download (st : Settings) (url : String) (resp : HttpResponse)
    (convertResult : Except String String) :
    Except HTTPError FileDownloadResponse × List RouteEv :=
  match download_file_from_url st url resp with
  | .error e => (.error ⟨500, "转换失败: " ++ e⟩, [.download])
  | .ok (_content, filename) =>
    let file_ext := deriveExt filename
    if (allowedExts st).contains file_ext = false then
      (.error ⟨400, unsupportedFormatMsg st⟩, [.download])
    else
      match convertResult with
      | .ok md =>
        let output_filename := originalNameOf filename ++ ".md"
        (.ok ⟨strUtf8 md, contentDispositionFor output_filename,
              "text/markdown; charset=utf-8"⟩, [.download, .convertCall])
      | .error e => (.error ⟨500, "转换失败: " ++ e⟩, [.download, .convertCall])

/-! ## Singleton lifecycle (`get_converter` in `app/core/converter.py`) -/

/-- Process state for the module global `_global_converter`: the cached
instance (identified by its construction index) and how many
`DocumentConverter()` constructions have run. -/
structure ConvState where
  globalConverter : Option Nat
  constructions : Nat
deriving DecidableEq, Repr

/-- The initial module state: `_global_converter = None`. -/
def initConvState : ConvState := ⟨none, 0⟩

/-- `get_converter()`: construct and cache on first call, return the
cached instance afterwards.  The body contains no `await`, so under
the service's single-threaded asyncio scheduling each call runs
atomically; calls are therefore modelled as atomic state transitions. -/
def get_converter : ConvState → ConvState × Nat
  | ⟨some inst, k⟩ => (⟨some inst, k⟩, inst)
  | ⟨none, k⟩ => (⟨some k, k + 1⟩, k)

/-- A sequence of `n` `get_converter()` calls, collecting the returned
instances in order. -/
def runGetConverter : Nat → ConvState → ConvState × List Nat
  | 0, s => (s, [])
  | n + 1, s =>
    let r1 := get_converter s
    let r2 := runGetConverter n r1.1
    (r2.1, r1.2 :: r2.2)

/-! ## Staged temporary file lifecycle (`app/core/converter.py`) -/

/-- Outcome of `_safe_delete_file`: number of `os.unlink` attempts
made, the sleeps (in milliseconds) between consecutive attempts, and
whether the call raised, logged a warning, or left the file on disk. -/
structure DeleteOutcome where
  attempts : Nat
  delaysMs : List Nat
  raised : Bool
  logged : Bool
  remains : Bool
deriving DecidableEq, Repr

/-- The retry loop of `_safe_delete_file`:
`for attempt in range(max_retries)`, where `outcomes.getD i false`
tells whether the `os.unlink` on attempt `i` succeeds.  On failure of
a non-final attempt it sleeps `retry_delay * (attempt + 1)`; on
failure of the final attempt it logs (except on Windows) and returns
without raising. -/
def unlinkLoop (outcomes : List Bool) (retryDelayMs : Nat) (windows : Bool) :
    Nat → Nat → DeleteOutcome
  | _, 0 => ⟨0, [], false, false, true⟩
  | attempt, remaining + 1 =>
    if outcomes.getD attempt false then
      ⟨attempt + 1, [], false, false, false⟩
    else if remaining = 0 then
      ⟨attempt + 1, [], false, !windows, true⟩
    else
      let r := unlinkLoop outcomes retryDelayMs windows (attempt + 1) remaining
      ⟨r.attempts, retryDelayMs * (attempt + 1) :: r.delaysMs, r.raised, r.logged, r.remains⟩

/-- `DocumentConverter._safe_delete_file(path)` with its default
arguments `max_retries=5`, `retry_delay=0.1` (100 ms): a no-op when
the file does not exist, otherwise the retry loop. -/
def safe_delete_file (fileExists : Bool) (outcomes : List Bool) (windows : Bool) :
    DeleteOutcome :=
  if fileExists then unlinkLoop outcomes 100 windows 0 5
  else ⟨0, [], false, false, false⟩

/-- Events in the body of `convert_from_bytes`, in program order. -/
inductive StageEv
  | staged
  | convertCalled
  | deleteAttempted
deriving DecidableEq, Repr

/-- `DocumentConverter.convert_from_bytes`: the temporary file is
created and written (staged), the blocking conversion is dispatched to
the executor (`convertResult` is its oracle: the Markdown, or the
exception message it raises), and the `finally` block then runs
`_safe_delete_file` on the staged path on both the return path and the
exception path.  Returns the propagated result, the event trace, and
whether the staged file remains on disk afterwards. -/
def convert_from_bytes (convertResult : Except String String)
    (deleteOutcomes : List Bool) (windows : Bool) :
    Except String String × List StageEv × Bool :=
  let cleanup := safe_delete_file true deleteOutcomes windows
  match convertResult with
  | .ok md => (.ok md, [.staged, .convertCalled, .deleteAttempted], cleanup.remains)
  | .error e => (.error e, [.staged, .convertCalled, .deleteAttempted], cleanup.remains)

/-! ## Claim-side reference definitions and concrete inputs -/

/-- Reference reading of the specified filename rule, following the
spec wording "the `filename=` parameter of a `Content-Disposition`
response header, stripped of quotes": split the header into
`;`-separated parameters, trim spaces, take the first parameter of
the form `filename=value`, and strip surrounding quote characters
from its value.  Used to compare the spec wording with the code's
`extract_filename`. -/
def specFilenameParam (cd : String) : Option String :=
  ((((pySplit cd ";").map (fun p => pyStrip p [' '])).filter
      (fun p => "filename=".data.isPrefixOf p.data)).head?).map
    (fun p => pyStrip (String.mk (p.data.drop 9)) quoteMarks)

/-- A Content-Disposition header whose `filename` parameter is
followed by another parameter:
`attachment; filename="a.pdf"; size=1`. -/
def cdWithTrailingParam : String :=
  "attachment; filename=" ++ String.mk [Char.ofNat 34] ++ "a.pdf" ++
    String.mk [Char.ofNat 34] ++ "; size=1"

/-- A configuration with a tiny 4-byte download ceiling, to exercise
the streaming size check on short inputs. -/
def smallSettings : Settings := ⟨".pdf,.docx,.pptx,.xlsx,.html,.htm", 100, 4, 30⟩

/-! ## Theorems for the claims -/

/-- C1: for every call to `convert_from_bytes`, the staged temporary
file's deletion is attempted after the convert call returns or throws —
the finally-block runs on the success path and on every exception path
(the trace always ends with the delete attempt, after the convert
call), the convert outcome is propagated unchanged, and whenever any
of the five unlink attempts succeeds the staged file no longer remains
on disk. -/
theorem c1_staged_file_cleanup (convertResult : Except String String)
    (b0 b1 b2 b3 b4 : Bool) (windows : Bool) :
    (convert_from_bytes convertResult [b0, b1, b2, b3, b4] windows).2.1 =
      [.staged, .convertCalled, .deleteAttempted] ∧
    (convert_from_bytes convertResult [b0, b1, b2, b3, b4] windows).1 = convertResult ∧
    ((b0 || b1 || b2 || b3 || b4) = true →
      (convert_from_bytes convertResult [b0, b1, b2, b3, b4] windows).2.2 = false) := by
  cases convertResult <;>
    · refine ⟨rfl, rfl, ?_⟩
      simp only [convert_from_bytes]
      revert b0 b1 b2 b3 b4 windows
      decide

/-- Witness for C1 at a concrete failing conversion whose first delete
attempt succeeds. -/
theorem c1_staged_file_cleanup_witness :
    (convert_from_bytes (.error "boom") [true, false, false, false, false] false).2.1 =
      [.staged, .convertCalled, .deleteAttempted] ∧
    (convert_from_bytes (.error "boom") [true, false, false, false, false] false).2.2 =
      false := by
  have h := c1_staged_file_cleanup (.error "boom") true false false false false false
  exact ⟨h.1, h.2.2 rfl⟩

/-- Helper: once the global is populated, `get_converter` is a pure
read: every later call returns the cached instance and constructs
nothing. -/
theorem runGetConverter_cached (n i k : Nat) :
    runGetConverter n ⟨some i, k⟩ = (⟨some i, k⟩, List.replicate n i) := by
  induction n with
  | zero => rfl
  | succ m ih => simp [runGetConverter, get_converter, ih, List.replicate_succ]

/-- C2: `get_converter` constructs the `DocumentConverter` on the first
call and caches it; after any positive number of calls starting from
the initial module state exactly one construction has run, the cache
holds that one instance, and every call returned the identical
instance.  Each call is an atomic step because the function body
contains no `await` (single-threaded asyncio scheduling). -/
theorem c2_singleton_lifecycle (n : Nat) (h : 1 ≤ n) :
    (runGetConverter n initConvState).1.constructions = 1 ∧
    (runGetConverter n initConvState).1.globalConverter = some 0 ∧
    (runGetConverter n initConvState).2 = List.replicate n 0 := by
  obtain ⟨m, rfl⟩ : ∃ m, n = m + 1 := ⟨n - 1, by omega⟩
  simp [runGetConverter, get_converter, initConvState, runGetConverter_cached,
    List.replicate_succ]

/-- Witness for C2 with three callers. -/
theorem c2_singleton_lifecycle_witness :
    1 ≤ 3 ∧
    (runGetConverter 3 initConvState).1.constructions = 1 ∧
    (runGetConverter 3 initConvState).2 = List.replicate 3 0 := by
  have h := c2_singleton_lifecycle 3 (by decide)
  exact ⟨by decide, h.1, h.2.2⟩

/-- C6: an upload whose derived extension is not in the allow-list is
rejected by `convert_file` with status 400, the detail message listing
the configured formats, and the conversion engine is never invoked
(the request performs no I/O event at all). -/
theorem c6_unsupported_extension_rejected (st : Settings) (filename : String)
    (content : List Nat) (cr : Except String String)
    (hext : (allowedExts st).contains (deriveExt filename) = false) :
    convert_file st filename content cr =
      (.error ⟨400, "不支持的文件格式。支持的格式: " ++ st.SUPPORTED_EXTENSIONS⟩, []) ∧
    RouteEv.convertCall ∉ (convert_file st filename content cr).2 := by
  have hmem : deriveExt filename ∉ allowedExts st := by simpa using hext
  simp [convert_file, hmem, unsupportedFormatMsg]

/-- Witness for C6 at the unsupported upload name `report.txt`. -/
theorem c6_unsupported_extension_rejected_witness :
    (allowedExts defaultSettings).contains (deriveExt "report.txt") = false ∧
    convert_file defaultSettings "report.txt" [1, 2] (.ok "md") =
      (.error ⟨400, "不支持的文件格式。支持的格式: " ++
        defaultSettings.SUPPORTED_EXTENSIONS⟩, []) := by
  have h := c6_unsupported_extension_rejected defaultSettings "report.txt" [1, 2]
    (.ok "md") (by decide)
  exact ⟨by decide, h.1⟩

/-- C8 counterexample: on Windows, when the file exists and all five
unlink attempts fail, `_safe_delete_file` returns without raising but
also without logging — the claim's unconditional "the failure is
logged" is false on that platform. -/
theorem c8_counterexample :
    (safe_delete_file true [false, false, false, false, false] true).attempts = 5 ∧
    (safe_delete_file true [false, false, false, false, false] true).raised = false ∧
    (safe_delete_file true [false, false, false, false, false] true).logged = false := by
  decide

/-- C8 (amended): deletion of an existing staged file is attempted up
to 5 times with linearly increasing sleeps (100 ms after the first
failure, 200 ms after the second, and so on); no exception is ever
raised; the file remains only when every attempt fails; and when all
five attempts fail the exhaustion is logged on non-Windows platforms
while on Windows it is silently ignored. -/
theorem c8_delete_retry_policy (b0 b1 b2 b3 b4 windows : Bool) :
    (safe_delete_file true [b0, b1, b2, b3, b4] windows).attempts ≤ 5 ∧
    (safe_delete_file true [b0, b1, b2, b3, b4] windows).raised = false ∧
    (safe_delete_file true [b0, b1, b2, b3, b4] windows).delaysMs =
      (List.range ((safe_delete_file true [b0, b1, b2, b3, b4] windows).attempts - 1)).map
        (fun i => 100 * (i + 1)) ∧
    (safe_delete_file true [b0, b1, b2, b3, b4] windows).remains =
      (!b0 && !b1 && !b2 && !b3 && !b4) ∧
    ((b0 || b1 || b2 || b3 || b4) = false →
      (safe_delete_file true [b0, b1, b2, b3, b4] windows).attempts = 5 ∧
      (safe_delete_file true [b0, b1, b2, b3, b4] windows).logged = !windows) ∧
    (windows = true → (safe_delete_file true [b0, b1, b2, b3, b4] windows).logged = false) := by
  revert b0 b1 b2 b3 b4 windows
  decide

/-- Witness for C8's amended policy: all attempts fail on a
non-Windows platform — five attempts, delays 100/200/300/400 ms,
logged, not raised. -/
theorem c8_delete_retry_policy_witness :
    (safe_delete_file true [false, false, false, false, false] false).delaysMs =
      [100, 200, 300, 400] ∧
    (safe_delete_file true [false, false, false, false, false] false).logged = true ∧
    (safe_delete_file true [false, false, false, false, false] false).raised = false := by
  have h := c8_delete_retry_policy false false false false false false
  refine ⟨?_, (h.2.2.2.2.1 rfl).2, h.2.1⟩
  have h3 := h.2.2.1
  rw [(h.2.2.2.2.1 rfl).1] at h3
  simpa using h3

/-- C9: for every URL whose GET response has a status other than 200,
`/convert/url` returns a 500 error response whose detail message
contains the decimal HTTP status code (the download error re-raised by
the route's generic handler), never a success payload. -/
theorem c9_non200_maps_to_500 (st : Settings) (url : String) (resp : HttpResponse)
    (cr : Except String String) (h : resp.status ≠ 200) :
    convert_from_url st url resp cr =
      (.error ⟨500, "转换失败: " ++ ("下载失败，HTTP状态码: " ++ toString resp.status)⟩,
        [.download]) ∧
    ∃ a b, "转换失败: " ++ ("下载失败，HTTP状态码: " ++ toString resp.status) =
      a ++ toString resp.status ++ b := by
  constructor
  · simp [convert_from_url, download_file_from_url, h]
  · refine ⟨"转换失败: 下载失败，HTTP状态码: ", "", ?_⟩
    have hlit : "转换失败: " ++ "下载失败，HTTP状态码: " = "转换失败: 下载失败，HTTP状态码: " := rfl
    rw [String.append_empty, ← String.append_assoc, hlit]

/-- Witness for C9 at a 404 response. -/
theorem c9_non200_maps_to_500_witness :
    convert_from_url defaultSettings "http://h/a.pdf" ⟨404, none, "", []⟩ (.ok "md") =
      (.error ⟨500, "转换失败: " ++ ("下载失败，HTTP状态码: " ++ toString 404)⟩,
        [.download]) ∧
    (404 : Nat) ≠ 200 := by
  have h := c9_non200_maps_to_500 defaultSettings "http://h/a.pdf" ⟨404, none, "", []⟩
    (.ok "md") (by decide)
  exact ⟨h.1, by decide⟩

/-- C10: the derived extension lowercases the text after the last dot,
so `REPORT.PDF` derives `.pdf` and is accepted; a dotless filename
derives the empty extension, which the default allow-list rejects with
a 400 on the upload route and on the URL route (after download). -/
theorem c10_case_insensitive_and_dotless (filename url : String) (content : List Nat)
    (resp : HttpResponse) (cr : Except String String) :
    deriveExt "REPORT.PDF" = ".pdf" ∧
    convert_file defaultSettings "REPORT.PDF" [] (Except.ok "md") =
      (.ok ⟨true, "md", some "REPORT.PDF", none⟩, [.fileRead, .convertCall]) ∧
    (pyIn "." filename = false → deriveExt filename = "") ∧
    (pyIn "." filename = false →
      convert_file defaultSettings filename content cr =
        (.error ⟨400, unsupportedFormatMsg defaultSettings⟩, [])) ∧
    (∀ fname fbytes, pyIn "." fname = false →
      download_file_from_url defaultSettings url resp = .ok (fbytes, fname) →
      convert_from_url defaultSettings url resp cr =
        (.error ⟨400, unsupportedFormatMsg defaultSettings⟩, [.download])) := by
  refine ⟨by decide, rfl, ?_, ?_, ?_⟩
  · intro h; simp [deriveExt, h]
  · intro h
    have h0 : deriveExt filename = "" := by simp [deriveExt, h]
    have hmem : deriveExt filename ∉ allowedExts defaultSettings := by
      rw [h0]; decide
    simp [convert_file, hmem]
  · intro fname fbytes h hdl
    have h0 : deriveExt fname = "" := by simp [deriveExt, h]
    have hmem : deriveExt fname ∉ allowedExts defaultSettings := by
      rw [h0]; decide
    simp [convert_from_url, hdl, hmem]

/-- Witness for C10 at the dotless name `nodot`, downloaded from a URL
whose last path segment has no extension. -/
theorem c10_case_insensitive_and_dotless_witness :
    pyIn "." "nodot" = false ∧
    convert_file defaultSettings "nodot" [7] (.ok "md") =
      (.error ⟨400, unsupportedFormatMsg defaultSettings⟩, []) ∧
    convert_from_url defaultSettings "http://h/nodot" ⟨200, none, "", [[1]]⟩ (.ok "md") =
      (.error ⟨400, unsupportedFormatMsg defaultSettings⟩, [.download]) := by
  have h := c10_case_insensitive_and_dotless "nodot" "http://h/nodot" [7]
    ⟨200, none, "", [[1]]⟩ (.ok "md")
  exact ⟨by decide, h.2.2.2.1 (by decide),
    h.2.2.2.2 "nodot" [1] (by decide) rfl⟩

/-- C4 counterexample: a URL request whose derived filename has an
unsupported extension is rejected with 400, yet the document HAS been
downloaded — the download both appears in the performed-I/O trace and
returned the body bytes — contradicting "rejected without the document
having been downloaded". -/
theorem c4_counterexample :
    (convert_from_url defaultSettings "http://h/doc.exe" ⟨200, none, "", [[1, 2]]⟩
        (.ok "md")).1 = .error ⟨400, unsupportedFormatMsg defaultSettings⟩ ∧
    RouteEv.download ∈
      (convert_from_url defaultSettings "http://h/doc.exe" ⟨200, none, "", [[1, 2]]⟩
        (.ok "md")).2 ∧
    download_file_from_url defaultSettings "http://h/doc.exe" ⟨200, none, "", [[1, 2]]⟩ =
      .ok ([1, 2], "doc.exe") := by
  refine ⟨rfl, ?_, rfl⟩
  show RouteEv.download ∈ [RouteEv.download]
  decide

/-- C4 (amended): validation rejections always precede staging and
conversion — the engine is never invoked for a rejected request — and
on the upload routes an unsupported extension is rejected before the
upload is even read; but on the URL routes validation necessarily runs
after the download (the filename comes from the response), and an
oversized upload is rejected only after the upload body has been read. -/
theorem c4_validation_order (st : Settings) (filename url : String) (content : List Nat)
    (resp : HttpResponse) (cr : Except String String) :
    ((allowedExts st).contains (deriveExt filename) = false →
      convert_file st filename content cr = (.error ⟨400, unsupportedFormatMsg st⟩, []) ∧
      convert_file_download st filename content cr =
        (.error ⟨400, unsupportedFormatMsg st⟩, [])) ∧
    ((allowedExts st).contains (deriveExt filename) = true →
      st.MAX_FILE_SIZE < content.length →
      convert_file st filename content cr =
        (.error ⟨400, sizeLimitMsg st.MAX_FILE_SIZE⟩, [.fileRead]) ∧
      convert_file_download st filename content cr =
        (.error ⟨400, sizeLimitMsg st.MAX_FILE_SIZE⟩, [.fileRead])) ∧
    (∀ fname fbytes, download_file_from_url st url resp = .ok (fbytes, fname) →
      (allowedExts st).contains (deriveExt fname) = false →
      convert_from_url st url resp cr =
        (.error ⟨400, unsupportedFormatMsg st⟩, [.download]) ∧
      convert_url_download st url resp cr =
        (.error ⟨400, unsupportedFormatMsg st⟩, [.download])) := by
  refine ⟨?_, ?_, ?_⟩
  · intro hext
    have hmem : deriveExt filename ∉ allowedExts st := by simpa using hext
    exact ⟨by simp [convert_file, hmem], by simp [convert_file_download, hmem]⟩
  · intro hext hsize
    have hmem : deriveExt filename ∈ allowedExts st := by simpa using hext
    exact ⟨by simp [convert_file, hmem, hsize],
      by simp [convert_file_download, hmem, hsize]⟩
  · intro fname fbytes hdl hext
    have hmem : deriveExt fname ∉ allowedExts st := by simpa using hext
    exact ⟨by simp [convert_from_url, hdl, hmem],
      by simp [convert_url_download, hdl, hmem]⟩

/-- Witness for C4's amended ordering at concrete inputs: an
unsupported upload, an oversized upload on both upload routes (101
bytes against a 100-byte ceiling), and an unsupported URL download. -/
theorem c4_validation_order_witness :
    convert_file defaultSettings "doc.exe" [1] (.ok "md") =
      (.error ⟨400, unsupportedFormatMsg defaultSettings⟩, []) ∧
    convert_file smallSettings "a.pdf" (List.replicate 101 0) (.ok "md") =
      (.error ⟨400, sizeLimitMsg smallSettings.MAX_FILE_SIZE⟩, [.fileRead]) ∧
    convert_file_download smallSettings "a.pdf" (List.replicate 101 0) (.ok "md") =
      (.error ⟨400, sizeLimitMsg smallSettings.MAX_FILE_SIZE⟩, [.fileRead]) ∧
    convert_from_url defaultSettings "http://h/doc.exe" ⟨200, none, "", [[1, 2]]⟩
        (.ok "md") =
      (.error ⟨400, unsupportedFormatMsg defaultSettings⟩, [.download]) := by
  have h := c4_validation_order defaultSettings "doc.exe" "http://h/doc.exe" [1]
    ⟨200, none, "", [[1, 2]]⟩ (.ok "md")
  have hbig := c4_validation_order smallSettings "a.pdf" "http://h/x"
    (List.replicate 101 0) ⟨200, none, "", []⟩ (.ok "md")
  have hsize := hbig.2.1 (by decide) (by decide)
  exact ⟨(h.1 (by decide)).1, hsize.1, hsize.2,
    (h.2.2 "doc.exe" [1, 2] rfl (by decide)).1⟩

/-- C7 counterexample: for the header
`attachment; filename="a.pdf"; size=1` the `filename=` parameter
stripped of quotes is `a.pdf`, but `_extract_filename` returns
everything after `filename=` — `a.pdf"; size=1` — because it splits on
the `filename=` marker instead of parsing parameters. -/
theorem c7_counterexample :
    specFilenameParam cdWithTrailingParam = some "a.pdf" ∧
    extract_filename "http://h/x.bin" cdWithTrailingParam =
      "a.pdf" ++ String.mk [Char.ofNat 34] ++ "; size=1" ∧
    ¬ extract_filename "http://h/x.bin" cdWithTrailingParam = "a.pdf" := by
  refine ⟨by decide, by decide, by decide⟩

/-- C7 (amended): the filename is resolved in this order: (a) when
`filename=` occurs in the Content-Disposition header, the text after
its first occurrence (which may include trailing parameters), stripped
of surrounding single/double quotes, if non-empty; otherwise (b) the
last non-empty path segment of the URL (pathlib semantics); otherwise
(c) the literal `document`. -/
theorem c7_filename_resolution (url cd : String) :
    (∀ fn, pyIn "filename=" cd = true →
      pyStrip ((pySplit cd "filename=").getD 1 "") quoteMarks = fn → fn ≠ "" →
      extract_filename url cd = fn) ∧
    (pyIn "filename=" cd = true →
      pyStrip ((pySplit cd "filename=").getD 1 "") quoteMarks = "" →
      extract_filename url cd = urlFallbackName url) ∧
    (pyIn "filename=" cd = false → extract_filename url cd = urlFallbackName url) ∧
    (posixName (urlPathOf url) ≠ "" → urlFallbackName url = posixName (urlPathOf url)) ∧
    (posixName (urlPathOf url) = "" → urlFallbackName url = "document") := by
  refine ⟨?_, ?_, ?_, ?_, ?_⟩
  · intro fn h1 h2 h3
    simp only [extract_filename]
    rw [if_pos h1, h2, if_pos h3]
  · intro h1 h2
    simp only [extract_filename]
    rw [if_pos h1, h2, if_neg (by decide)]
  · intro h1
    simp [extract_filename, h1]
  · intro h1
    simp [urlFallbackName, h1]
  · intro h1
    simp [urlFallbackName, h1]

/-- Witness for C7's amended resolution at a quoted simple header, a
bare URL, and a URL with an empty path. -/
theorem c7_filename_resolution_witness :
    extract_filename "http://h/x.bin"
      ("attachment; filename=" ++ String.mk [Char.ofNat 34] ++ "report.pdf" ++
        String.mk [Char.ofNat 34]) = "report.pdf" ∧
    extract_filename "http://h/y/z.docx" "" = "z.docx" ∧
    extract_filename "http://example.com" "" = "document" := by
  have h1 := (c7_filename_resolution "http://h/x.bin"
    ("attachment; filename=" ++ String.mk [Char.ofNat 34] ++ "report.pdf" ++
      String.mk [Char.ofNat 34])).1 "report.pdf" (by decide) (by decide) (by decide)
  have h2 := (c7_filename_resolution "http://h/y/z.docx" "").2.2.1 (by decide)
  have h3 := (c7_filename_resolution "http://example.com" "").2.2.1 (by decide)
  refine ⟨h1, ?_, ?_⟩
  · rw [h2]; decide
  · rw [h3]; decide

/-- Helper: whenever the total streamed size exceeds the maximum (and
the buffer so far does not), the accumulation loop aborts with the
size-limit error, and the buffer length at the abort exceeds the
maximum by at most one chunk. -/
theorem readChunks_overflow (m : Nat) (chunks : List (List Nat)) (acc : List Nat)
    (hchunk : ∀ c ∈ chunks, c.length ≤ 8192) (hacc : acc.length ≤ m)
    (htotal : m < acc.length + (chunks.map List.length).sum) :
    readChunks m chunks acc = .error (sizeLimitMsg m) ∧
    ∃ n, bufferAtAbort m chunks acc.length = some n ∧ m < n ∧ n ≤ m + 8192 := by
  induction chunks generalizing acc with
  | nil =>
    simp only [List.map_nil, List.sum_nil, Nat.add_zero] at htotal
    omega
  | cons c cs ih =>
    have hc : c.length ≤ 8192 := hchunk c (by simp)
    have hl : (acc ++ c).length = acc.length + c.length := List.length_append _ _
    by_cases hlt : m < acc.length + c.length
    · refine ⟨?_, acc.length + c.length, ?_, hlt, by omega⟩
      · simp only [readChunks]
        rw [if_pos (by omega)]
      · simp only [bufferAtAbort]
        rw [if_pos hlt]
    · have htotal2 : m < (acc ++ c).length + (cs.map List.length).sum := by
        simp only [List.map_cons, List.sum_cons] at htotal
        omega
      have h2 := ih (acc ++ c) (fun x hx => hchunk x (by simp [hx])) (by omega) htotal2
      refine ⟨?_, ?_⟩
      · simp only [readChunks]
        rw [if_neg (by omega)]
        exact h2.1
      · simp only [bufferAtAbort]
        rw [if_neg hlt]
        rw [hl] at h2
        exact h2.2

/-- C3 counterexample: with a 4-byte ceiling and chunks of sizes 3 and
2 the download aborts, but only once the accumulated buffer holds 5
bytes — the buffer does exceed the configured maximum before the abort
fires, contradicting "the abort happens before the accumulated buffer
exceeds the configured max size". -/
theorem c3_counterexample :
    download_file_from_url smallSettings "http://h/a.pdf"
        ⟨200, none, "", [[0, 0, 0], [0, 0]]⟩ =
      .error (sizeLimitMsg 4) ∧
    bufferAtAbort 4 [[0, 0, 0], [0, 0]] 0 = some 5 ∧ ¬(5 ≤ 4) :=
  ⟨rfl, rfl, by decide⟩

/-- C3 (amended): for a 200 response whose Content-Length header is
absent or understated (it does not exceed the maximum, so the header
check passes) and whose streamed body exceeds the configured maximum,
the download aborts with the size-limit error as soon as the
accumulated count exceeds the maximum — immediately after appending
the offending chunk — and never returns bytes to the caller; at the
abort the buffer exceeds the maximum, by at most one 8 KiB chunk. -/
theorem c3_streaming_size_abort (st : Settings) (url : String) (resp : HttpResponse)
    (hstatus : resp.status = 200)
    (hlen : ∀ n, resp.contentLength = some n → n ≤ st.MAX_DOWNLOAD_SIZE)
    (hchunk : ∀ c ∈ resp.chunks, c.length ≤ 8192)
    (htotal : st.MAX_DOWNLOAD_SIZE < (resp.chunks.map List.length).sum) :
    download_file_from_url st url resp = .error (sizeLimitMsg st.MAX_DOWNLOAD_SIZE) ∧
    ∃ n, bufferAtAbort st.MAX_DOWNLOAD_SIZE resp.chunks 0 = some n ∧
      st.MAX_DOWNLOAD_SIZE < n ∧ n ≤ st.MAX_DOWNLOAD_SIZE + 8192 := by
  have h := readChunks_overflow st.MAX_DOWNLOAD_SIZE resp.chunks [] hchunk
    (by simp) (by simpa using htotal)
  refine ⟨?_, by simpa using h.2⟩
  cases hc : resp.contentLength with
  | none => simp [download_file_from_url, hstatus, hc, h.1, Except.map]
  | some n =>
    have hn : ¬(st.MAX_DOWNLOAD_SIZE < n) := Nat.not_lt.mpr (hlen n hc)
    simp [download_file_from_url, hstatus, hc, hn, h.1, Except.map]

/-- Witness for C3's amended abort behaviour at a concrete chunked
response whose Content-Length header understates the body (it claims
3 bytes, below the 4-byte ceiling, while the stream carries 5). -/
theorem c3_streaming_size_abort_witness :
    download_file_from_url smallSettings "http://h/b.pdf"
        ⟨200, some 3, "", [[1, 1, 1], [1, 1]]⟩ =
      .error (sizeLimitMsg smallSettings.MAX_DOWNLOAD_SIZE) ∧
    ∃ n, bufferAtAbort smallSettings.MAX_DOWNLOAD_SIZE [[1, 1, 1], [1, 1]] 0 = some n ∧
      smallSettings.MAX_DOWNLOAD_SIZE < n ∧ n ≤ smallSettings.MAX_DOWNLOAD_SIZE + 8192 :=
  c3_streaming_size_abort smallSettings "http://h/b.pdf"
    ⟨200, some 3, "", [[1, 1, 1], [1, 1]]⟩ rfl
    (fun n hn => (Option.some.inj hn) ▸ (by decide : (3 : Nat) ≤ 4))
    (by decide) (by decide)

set_option maxRecDepth 4096 in
/-- Helper: character-level facts about always-safe bytes — the
character emitted for a safe byte is an RFC 5987 `attr-char`, is not
the percent sign, and carries the byte's value as an ASCII code. -/
theorem safeByte_char_facts :
    ∀ b : Fin 256, isAlwaysSafeByte b.val = true →
      (isAttrChar (Char.ofNat b.val) = true ∧ ¬(Char.ofNat b.val = Char.ofNat 37) ∧
        (Char.ofNat b.val).toNat = b.val ∧ (Char.ofNat b.val).toNat < 128) := by
  decide

/-- Helper: the uppercase hex digit character decodes back to its
value. -/
theorem hexVal_hexUpper : ∀ d : Fin 16, hexVal (hexUpper d.val) = some d.val := by
  decide

/-- Helper: the characters `quote` emits for one byte form a valid
RFC 5987 fragment in front of any valid tail. -/
theorem rfc5987_quoteByte (b : Nat) (hb : b < 256) (rest : List Char) :
    rfc5987ValidChars (quoteByteChars b ++ rest) = rfc5987ValidChars rest := by
  by_cases hs : isAlwaysSafeByte b = true
  · obtain ⟨h1, h2, _, _⟩ := safeByte_char_facts ⟨b, hb⟩ hs
    have h1a : isAttrChar (Char.ofNat b) = true := h1
    have h2a : ¬(Char.ofNat b = Char.ofNat 37) := h2
    rcases rest with - | ⟨x, - | ⟨y, t⟩⟩ <;>
      simp [quoteByteChars, hs, rfc5987ValidChars, h1a, h2a]
  · have hh : hexVal (hexUpper (b / 16)) = some (b / 16) :=
      hexVal_hexUpper ⟨b / 16, by omega⟩
    have hl : hexVal (hexUpper (b % 16)) = some (b % 16) :=
      hexVal_hexUpper ⟨b % 16, by omega⟩
    simp [quoteByteChars, hs, rfc5987ValidChars, hh, hl]

/-- Helper: the characters `quote` emits for one byte percent-decode
back to that byte in front of any tail. -/
theorem pctDecode_quoteByte (b : Nat) (hb : b < 256) (rest : List Char) :
    pctDecodeList (quoteByteChars b ++ rest) =
      (pctDecodeList rest).map (fun bs => b :: bs) := by
  by_cases hs : isAlwaysSafeByte b = true
  · obtain ⟨_, h2, h3, h4⟩ := safeByte_char_facts ⟨b, hb⟩ hs
    have h2a : ¬(Char.ofNat b = Char.ofNat 37) := h2
    have h3a : (Char.ofNat b).toNat = b := h3
    have h4a : (Char.ofNat b).toNat < 128 := h4
    have h5a : b < 128 := h3a ▸ h4a
    rcases rest with - | ⟨x, - | ⟨y, t⟩⟩ <;>
      simp [quoteByteChars, hs, pctDecodeList, h2a, h3a, h4a, h5a]
  · have hh : hexVal (hexUpper (b / 16)) = some (b / 16) :=
      hexVal_hexUpper ⟨b / 16, by omega⟩
    have hl : hexVal (hexUpper (b % 16)) = some (b % 16) :=
      hexVal_hexUpper ⟨b % 16, by omega⟩
    simp [quoteByteChars, hs, pctDecodeList, hh, hl, Nat.div_add_mod]

/-- Helper: the full quoted byte sequence is RFC 5987 valid. -/
theorem rfc5987_quoteBytes (bs : List Nat) (h : ∀ b ∈ bs, b < 256) :
    rfc5987ValidChars ((bs.map quoteByteChars).flatten) = true := by
  induction bs with
  | nil => rfl
  | cons b rest ih =>
    simp only [List.map_cons, List.flatten_cons]
    rw [rfc5987_quoteByte b (h b (by simp)) _]
    exact ih (fun x hx => h x (by simp [hx]))

/-- Helper: percent-decoding the full quoted byte sequence recovers
the bytes. -/
theorem pctDecode_quoteBytes (bs : List Nat) (h : ∀ b ∈ bs, b < 256) :
    pctDecodeList ((bs.map quoteByteChars).flatten) = some bs := by
  induction bs with
  | nil => rfl
  | cons b rest ih =>
    simp only [List.map_cons, List.flatten_cons]
    rw [pctDecode_quoteByte b (h b (by simp)) _, ih (fun x hx => h x (by simp [hx]))]
    rfl

/-- Helper: every UTF-8 byte produced by the encoder is below 256. -/
theorem utf8Bytes_lt_256 (c : Char) : ∀ b ∈ utf8Bytes c, b < 256 := by
  have hc : c.toNat < 1114112 := by
    have h := c.valid
    show c.val.toNat < 1114112
    rcases h with h | h <;> omega
  intro b hb
  by_cases h1 : c.toNat < 128
  · simp only [utf8Bytes, if_pos h1, List.mem_singleton] at hb
    omega
  · by_cases h2 : c.toNat < 2048
    · simp only [utf8Bytes, if_neg h1, if_pos h2, List.mem_cons, List.mem_singleton,
        List.not_mem_nil, or_false] at hb
      rcases hb with hb | hb <;> omega
    · by_cases h3 : c.toNat < 65536
      · simp only [utf8Bytes, if_neg h1, if_neg h2, if_pos h3, List.mem_cons,
          List.mem_singleton, List.not_mem_nil, or_false] at hb
        rcases hb with hb | hb | hb <;> omega
      · simp only [utf8Bytes, if_neg h1, if_neg h2, if_neg h3, List.mem_cons,
          List.mem_singleton, List.not_mem_nil, or_false] at hb
        rcases hb with hb | hb | hb | hb <;> omega

/-- Helper: every byte of a string's UTF-8 encoding is below 256. -/
theorem strUtf8_lt_256 (s : String) : ∀ b ∈ strUtf8 s, b < 256 := by
  intro b hb
  simp only [strUtf8, List.mem_flatten, List.mem_map] at hb
  obtain ⟨l, ⟨c, _, rfl⟩, hbl⟩ := hb
  exact utf8Bytes_lt_256 c b hbl

/-- Helper: percent-decoding the quoted form of a string recovers
exactly its UTF-8 bytes. -/
theorem pctDecode_urlQuoteAll (s : String) :
    pctDecodeBytes (urlQuoteAll s) = some (strUtf8 s) :=
  pctDecode_quoteBytes (strUtf8 s) (strUtf8_lt_256 s)

/-- Helper: the quoted form of any string is a well-formed RFC 5987
`value-chars` production. -/
theorem rfc5987_urlQuoteAll (s : String) :
    rfc5987ValidChars (urlQuoteAll s).data = true :=
  rfc5987_quoteBytes (strUtf8 s) (strUtf8_lt_256 s)

/-- C5: for every uploaded filename containing a dot, a successful
`/convert/file/download` response carries
`Content-Disposition: attachment; filename*=UTF-8` followed by two
single quotes and the percent-encoding of the original filename with
its final extension replaced by `.md`, and Content-Type
`text/markdown; charset=utf-8`; the encoded name is a well-formed
RFC 5987 `value-chars` string whose percent-decoding is exactly the
UTF-8 of the target filename. -/
theorem c5_download_headers (st : Settings) (filename : String) (content : List Nat)
    (md : String) (_hdot : pyIn "." filename = true)
    (hext : (allowedExts st).contains (deriveExt filename) = true)
    (hsize : content.length ≤ st.MAX_FILE_SIZE) :
    convert_file_download st filename content (.ok md) =
      (.ok ⟨strUtf8 md,
        "attachment; filename*=UTF-8" ++ String.mk [Char.ofNat 39, Char.ofNat 39] ++
          urlQuoteAll (originalNameOf filename ++ ".md"),
        "text/markdown; charset=utf-8"⟩, [.fileRead, .convertCall]) ∧
    rfc5987ValidChars (urlQuoteAll (originalNameOf filename ++ ".md")).data = true ∧
    pctDecodeBytes (urlQuoteAll (originalNameOf filename ++ ".md")) =
      some (strUtf8 (originalNameOf filename ++ ".md")) := by
  refine ⟨?_, rfc5987_urlQuoteAll _, pctDecode_urlQuoteAll _⟩
  have hmem : deriveExt filename ∈ allowedExts st := by simpa using hext
  simp [convert_file_download, hmem, Nat.not_lt.mpr hsize, contentDispositionFor]

/-- Witness for C5 at the non-ASCII upload name from the spec example,
whose encoded Content-Disposition value is
`%E6%8A%A5%E5%91%8A.md`. -/
theorem c5_download_headers_witness :
    convert_file_download defaultSettings ("报告" ++ ".pdf") [] (.ok "m") =
      (.ok ⟨strUtf8 "m",
        "attachment; filename*=UTF-8" ++ String.mk [Char.ofNat 39, Char.ofNat 39] ++
          urlQuoteAll (originalNameOf ("报告" ++ ".pdf") ++ ".md"),
        "text/markdown; charset=utf-8"⟩, [.fileRead, .convertCall]) ∧
    urlQuoteAll (originalNameOf ("报告" ++ ".pdf") ++ ".md") = "%E6%8A%A5%E5%91%8A.md" := by
  have h := c5_download_headers defaultSettings ("报告" ++ ".pdf") [] "m"
    (by decide) (by decide) (by decide)
  exact ⟨h.1, by decide⟩

end File2md
